import Mathlib

/-!
Verification of the GMGN latency monitor (Python sources under
`src/gmgn_monitor/`) against its natural-language specification.

The embedding models JSON-like payload values (`Value`), the utility
functions of `utils.py` (`get_chain_name`, `calculate_latency`,
`safe_float`), the metrics sink of `metrics.py` (`record_latency`,
`record_pool_discovery_latency`), the statistics aggregator of `stats.py`
(`Statistics.update`), the two event decoders and the listening loop of
`gmgn_websocket.py` (`handle_swap_trade`, `handle_new_pool`, `listenLoop`)
and the reconnect backoff of `run_gmgn_monitor` (`monitorSleeps`).

Python floats are modelled as rationals; Python exceptions are modelled
explicitly: a per-record handler returns the list of observable actions it
performed before either finishing normally or raising.
-/

namespace Gmgn

/-- JSON-like payload value, as produced by `json.loads`.
Dicts are association lists in insertion order. -/
inductive Value where
  | vNull : Value
  | vNum : ℚ → Value
  | vStr : String → Value
  | vList : List Value → Value
  | vDict : List (String × Value) → Value
deriving Repr

mutual

/-- Structural equality test for payload values. -/
def valueBEq : Value → Value → Bool
  | .vNull, .vNull => true
  | .vNum a, .vNum b => a == b
  | .vStr a, .vStr b => a == b
  | .vList a, .vList b => valueListBEq a b
  | .vDict a, .vDict b => valueDictBEq a b
  | _, _ => false

/-- Structural equality test for lists of payload values. -/
def valueListBEq : List Value → List Value → Bool
  | [], [] => true
  | a :: as, b :: bs => valueBEq a b && valueListBEq as bs
  | _, _ => false

/-- Structural equality test for association lists of payload values. -/
def valueDictBEq : List (String × Value) → List (String × Value) → Bool
  | [], [] => true
  | (ka, va) :: as, (kb, vb) :: bs =>
      ka == kb && valueBEq va vb && valueDictBEq as bs
  | _, _ => false

end

mutual

theorem valueBEq_iff : (a b : Value) → (valueBEq a b = true ↔ a = b)
  | .vNull, .vNull => by simp [valueBEq]
  | .vNull, .vNum _ | .vNull, .vStr _ | .vNull, .vList _ | .vNull, .vDict _ => by
      simp [valueBEq]
  | .vNum _, .vNull | .vNum _, .vStr _ | .vNum _, .vList _ | .vNum _, .vDict _ => by
      simp [valueBEq]
  | .vStr _, .vNull | .vStr _, .vNum _ | .vStr _, .vList _ | .vStr _, .vDict _ => by
      simp [valueBEq]
  | .vList _, .vNull | .vList _, .vNum _ | .vList _, .vStr _ | .vList _, .vDict _ => by
      simp [valueBEq]
  | .vDict _, .vNull | .vDict _, .vNum _ | .vDict _, .vStr _ | .vDict _, .vList _ => by
      simp [valueBEq]
  | .vNum a, .vNum b => by simp [valueBEq]
  | .vStr a, .vStr b => by simp [valueBEq]
  | .vList a, .vList b => by
      simp [valueBEq, valueListBEq_iff a b]
  | .vDict a, .vDict b => by
      simp [valueBEq, valueDictBEq_iff a b]

theorem valueListBEq_iff : (as bs : List Value) → (valueListBEq as bs = true ↔ as = bs)
  | [], [] => by simp [valueListBEq]
  | [], _ :: _ => by simp [valueListBEq]
  | _ :: _, [] => by simp [valueListBEq]
  | a :: as, b :: bs => by
      simp [valueListBEq, valueBEq_iff a b, valueListBEq_iff as bs]

theorem valueDictBEq_iff :
    (as bs : List (String × Value)) → (valueDictBEq as bs = true ↔ as = bs)
  | [], [] => by simp [valueDictBEq]
  | [], _ :: _ => by simp [valueDictBEq]
  | _ :: _, [] => by simp [valueDictBEq]
  | (ka, va) :: as, (kb, vb) :: bs => by
      simp [valueDictBEq, valueBEq_iff va vb, valueDictBEq_iff as bs,
        Prod.ext_iff, and_assoc]

end

instance : DecidableEq Value := fun a b =>
  decidable_of_iff (valueBEq a b = true) (valueBEq_iff a b)

/-- Python truthiness (`bool(v)`) for the payload values we model. -/
def pyTruthy : Value → Bool
  | .vNull => false
  | .vNum q => q != 0
  | .vStr s => s != ""
  | .vList l => !l.isEmpty
  | .vDict d => !d.isEmpty

/-- Python `d.get(k, default)`: the stored value when the key is present
(even when that value is null), otherwise the default. -/
def dget (d : List (String × Value)) (k : String) (default : Value) : Value :=
  (d.lookup k).getD default

/-- Python `d.get(k)`: absent keys yield `None`. -/
def dgetN (d : List (String × Value)) (k : String) : Value :=
  dget d k .vNull

/-- The value when it is a Python `str`, else `none` (string methods such as
`.lower()`, `len()`, `.startswith` raise on any other value). -/
def asStr : Value → Option String
  | .vStr s => some s
  | _ => none

/-- Python `str.lower()` on the ASCII strings this program handles. -/
def pyLower (s : String) : String :=
  String.mk (s.data.map Char.toLower)

/-- The `CHAIN_MAP` table of `utils.py`. -/
def CHAIN_MAP : List (String × String) :=
  [("sol", "solana"), ("bsc", "bnb"), ("base", "base"), ("eth", "ethereum"),
   ("Solana", "solana"), ("BNB Chain", "bnb"), ("Base", "base"),
   ("Ethereum", "ethereum")]

/-- `utils.get_chain_name`: `CHAIN_MAP.get(chain_code, chain_code.lower())`. -/
def get_chain_name (chain_code : String) : String :=
  (CHAIN_MAP.lookup chain_code).getD (pyLower chain_code)

/-- `get_chain_name` as called on a raw payload value: the eagerly evaluated
default `chain_code.lower()` raises `AttributeError` on a non-string. -/
def get_chain_name_v (chain_code : Value) : Option String :=
  (asStr chain_code).map get_chain_name

/-- `utils.calculate_latency`.  `if not server_timestamp: return None` drops
null, zero and other falsy inputs; the following `try` block computes
`(now - server_timestamp) * 1000`, turning the `TypeError` on a non-numeric
truthy input into `None`, and drops results outside `[0, 120000]`. -/
def calculate_latency (server_timestamp : Value) (now : ℚ) : Option ℚ :=
  if pyTruthy server_timestamp = false then none
  else
    match server_timestamp with
    | .vNum ts =>
        let latency_ms := (now - ts) * 1000
        if latency_ms < 0 ∨ latency_ms > 120000 then none else some latency_ms
    | _ => none

/-- Digits of a decimal literal as a natural number (`[]` counts as 0). -/
def digitsVal (cs : List Char) : ℕ :=
  cs.foldl (fun a c => a * 10 + (c.toNat - 48)) 0

/-- The Python builtin `float(s)` on plain decimal string literals
(optional sign, digits, optional fractional part); anything else raises
`ValueError`, modelled as `none`. -/
def pyParseFloat (s : String) : Option ℚ :=
  let cs := s.data
  let signed : ℚ × List Char :=
    match cs with
    | '-' :: rest => (-1, rest)
    | '+' :: rest => (1, rest)
    | _ => (1, cs)
  let intPart := signed.2.takeWhile Char.isDigit
  let rest := signed.2.drop intPart.length
  match rest with
  | [] => if intPart.isEmpty then none else some (signed.1 * digitsVal intPart)
  | '.' :: frac =>
      if frac.all Char.isDigit && !(intPart.isEmpty && frac.isEmpty) then
        some (signed.1 * ((digitsVal intPart : ℚ) + digitsVal frac / 10 ^ frac.length))
      else none
  | _ => none

/-- `utils.safe_float`: `float(val)` with `None`/`ValueError`/`TypeError`
degrading to the default. -/
def safe_float (val : Value) (default : ℚ) : ℚ :=
  match val with
  | .vNull => default
  | .vNum q => q
  | .vStr s => (pyParseFloat s).getD default
  | .vList _ => default
  | .vDict _ => default

/-- Python `int()` truncation toward zero of a rational. -/
def pyInt (q : ℚ) : ℤ :=
  q.num.tdiv (q.den : ℤ)

/-- A `gauge.labels(...).set(value)` call performed by `metrics.py`. -/
inductive GaugeWrite where
  | swapLat : String → ℚ → GaugeWrite
  | poolDisc : String → String → ℚ → GaugeWrite
  | allAgg : String → String → ℚ → GaugeWrite
deriving DecidableEq, Repr

/-- `metrics.record_latency` (gauges initialized): filters out values below 0
or above 120000, otherwise sets the swap gauge and the combined gauge. -/
def record_latency (aggregator chain : String) (latency_ms : ℚ) :
    List GaugeWrite :=
  if latency_ms < 0 ∨ latency_ms > 120000 then []
  else [.swapLat chain latency_ms, .allAgg aggregator chain latency_ms]

/-- `metrics.record_pool_discovery_latency` (gauges initialized): same filter,
then sets the pool-discovery gauge and the combined gauge. -/
def record_pool_discovery_latency (aggregator chain : String)
    (latency_ms : ℚ) : List GaugeWrite :=
  if latency_ms < 0 ∨ latency_ms > 120000 then []
  else [.poolDisc aggregator chain latency_ms, .allAgg aggregator chain latency_ms]

/-- One `self.by_chain[chain]` dict of `stats.py`. -/
structure ChainBucket where
  swap_count : ℕ
  pool_count : ℕ
  total_latency : ℚ
deriving DecidableEq, Repr

/-- The `Statistics` tracker of `stats.py`.  `min_*_latency` is `Option ℚ`
with `none` standing for the initial `float('inf')`; `by_chain` is an
association list in dict insertion order. -/
structure Statistics where
  swap_count : ℕ
  pool_count : ℕ
  total_swap_latency : ℚ
  total_pool_latency : ℚ
  min_swap_latency : Option ℚ
  max_swap_latency : ℚ
  min_pool_latency : Option ℚ
  max_pool_latency : ℚ
  by_chain : List (String × ChainBucket)
deriving DecidableEq, Repr

/-- `Statistics.__init__`. -/
def Statistics.init : Statistics :=
  { swap_count := 0, pool_count := 0, total_swap_latency := 0,
    total_pool_latency := 0, min_swap_latency := none, max_swap_latency := 0,
    min_pool_latency := none, max_pool_latency := 0, by_chain := [] }

/-- `min(self.min_*_latency, latency_ms)` with `none` as `float('inf')`. -/
def pyMinInf (m : Option ℚ) (l : ℚ) : Option ℚ :=
  match m with
  | none => some l
  | some v => some (min v l)

/-- The global per-type counter mutations at the top of `Statistics.update`:
the `swap` branch, the `pool` branch, or no change for any other tag. -/
def updateGlobals (s : Statistics) (event_type : String) (latency_ms : ℚ) :
    Statistics :=
  if event_type = "swap" then
    { s with swap_count := s.swap_count + 1,
             total_swap_latency := s.total_swap_latency + latency_ms,
             min_swap_latency := pyMinInf s.min_swap_latency latency_ms,
             max_swap_latency := max s.max_swap_latency latency_ms }
  else if event_type = "pool" then
    { s with pool_count := s.pool_count + 1,
             total_pool_latency := s.total_pool_latency + latency_ms,
             min_pool_latency := pyMinInf s.min_pool_latency latency_ms,
             max_pool_latency := max s.max_pool_latency latency_ms }
  else s

/-- `if chain not in self.by_chain:` create the zeroed bucket (dicts append
new keys at the end). -/
def ensureChain (l : List (String × ChainBucket)) (chain : String) :
    List (String × ChainBucket) :=
  if (l.lookup chain).isSome then l else l ++ [(chain, ⟨0, 0, 0⟩)]

/-- In-place update of the (first, hence unique) entry of a dict. -/
def setKey : List (String × ChainBucket) → String → ChainBucket →
    List (String × ChainBucket)
  | [], _, _ => []
  | (k, b) :: rest, c, b' =>
      if k = c then (k, b') :: rest else (k, b) :: setKey rest c b'

/-- `self.by_chain[chain][f'{event_type}_count'] += 1` followed by
`self.by_chain[chain]['total_latency'] += latency_ms`, for the two tags on
which the first line does not raise `KeyError`. -/
def bumpBucket (event_type : String) (latency_ms : ℚ) (b : ChainBucket) :
    ChainBucket :=
  let b1 :=
    if event_type = "swap" then { b with swap_count := b.swap_count + 1 }
    else { b with pool_count := b.pool_count + 1 }
  { b1 with total_latency := b1.total_latency + latency_ms }

/-- `Statistics.update`.  The result is `.error` with the partially mutated
object when `f'{event_type}_count'` is not a bucket key (a `KeyError` raised
after the bucket for the chain was already created), and `.ok` with the fully
updated object otherwise. -/
def Statistics.update (s : Statistics) (event_type chain : String)
    (latency_ms : ℚ) : Except Statistics Statistics :=
  let s1 := updateGlobals s event_type latency_ms
  let bc := ensureChain s1.by_chain chain
  match bc.lookup chain with
  | some b =>
      if event_type = "swap" ∨ event_type = "pool" then
        .ok { s1 with by_chain := setKey bc chain (bumpBucket event_type latency_ms b) }
      else .error { s1 with by_chain := bc }
  | none => .error { s1 with by_chain := bc }

/-- A call site applying `Statistics.update` to a Python object mutated in
place: an exception leaves the mutations performed before the raise. -/
def applyUpdate (s : Statistics) (e : String × String × ℚ) : Statistics :=
  match s.update e.1 e.2.1 e.2.2 with
  | .ok s' => s'
  | .error s' => s'

/-- A sequence of `update` calls on one `Statistics` object. -/
def runUpdates (s : Statistics) (es : List (String × String × ℚ)) :
    Statistics :=
  es.foldl applyUpdate s

/-- The running mean printed by `print_summary` for swaps:
`self.total_swap_latency / self.swap_count`. -/
def avg_swap (s : Statistics) : ℚ :=
  s.total_swap_latency / (s.swap_count : ℚ)

/-- The running mean printed by `print_summary` for pools:
`self.total_pool_latency / self.pool_count`. -/
def avg_pool (s : Statistics) : ℚ :=
  s.total_pool_latency / (s.pool_count : ℚ)

/-- Sum over the per-chain buckets of `swap_count + pool_count`
(the per-chain `total` of `print_summary`). -/
def chainEventSum (l : List (String × ChainBucket)) : ℕ :=
  (l.map (fun p => p.2.swap_count + p.2.pool_count)).sum

/-- Sum over the per-chain buckets of `total_latency`. -/
def chainLatencySum (l : List (String × ChainBucket)) : ℚ :=
  (l.map (fun p => p.2.total_latency)).sum

/-- An observable side effect of the decoders of `gmgn_websocket.py`:
a metrics-sink call, a `stats_obj.update` call, or the console line printed
for a record. -/
inductive Action where
  | metricSwap : String → String → ℚ → Action
  | metricPool : String → String → ℚ → Action
  | statsUpdate : String → String → ℚ → Action
  | printSwap : String → Value → String → ℚ → ℚ → ℚ → ℤ → ℤ → ℚ → Bool → Action
  | printPool : String → Value → Value → Value → String → ℚ → ℚ → ℚ → ℤ → ℚ → Action
deriving DecidableEq, Repr

/-- Python iteration `for x in v`: lists yield their elements, strings their
characters, dicts their keys; `None` and numbers raise `TypeError`. -/
def pyIter : Value → Option (List Value)
  | .vList xs => some xs
  | .vStr s => some (s.data.map fun c => Value.vStr (String.mk [c]))
  | .vDict kvs => some (kvs.map fun kv => Value.vStr kv.1)
  | _ => none

/-- Processing of the records of a batch in order: each record yields the
actions it performed plus a raised flag; an exception propagates out of the
`for` loop, so the remaining records are not processed. -/
def runRecords (f : Value → List Action × Bool) : List Value → List Action × Bool
  | [] => ([], false)
  | t :: ts =>
      let r := f t
      if r.2 then (r.1, true)
      else
        let rest := runRecords f ts
        (r.1 ++ rest.1, rest.2)

/-- The body of the `for trade in data` loop of `handle_swap_trade`, for one
record.  Raise points (second component `true`, keeping the actions already
performed): a non-dict record (`trade.get` raises); in debug mode with an
unknown chain, `address.startswith` on a non-string address; `chain_code.lower()`
inside `get_chain_name` on a non-string chain value; `len(address)` on a
non-string address, raised only after the metrics and stats calls. -/
def handle_swap_trade_one (now : ℚ) (debug : Bool) (trade : Value) :
    List Action × Bool :=
  match trade with
  | .vDict d =>
      let symbol := dget d "s" (.vStr "UNKNOWN")
      let addressV := dget d "a" (.vStr "")
      let price := dget d "p" (.vNum 0)
      let market_cap := dget d "mc" (.vNum 0)
      let volume_1h := dget d "v1h" (.vNum 0)
      let buys_1h := dget d "b1h" (.vNum 0)
      let sells_1h := dget d "s1h" (.vNum 0)
      let chain_raw := dget d "c" (dget d "n" (.vStr "unknown"))
      if debug ∧ asStr chain_raw = some "unknown" ∧ (asStr addressV).isNone then
        ([], true)
      else
        match get_chain_name_v chain_raw with
        | none => ([], true)
        | some chain =>
            match calculate_latency (dgetN d "t") now with
            | none => ([], false)
            | some latency =>
                let acts := [Action.metricSwap "gmgn" chain latency,
                             Action.statsUpdate "swap" chain latency]
                match asStr addressV with
                | none => (acts, true)
                | some address =>
                    let price_val := safe_float price 0
                    let mc_val := safe_float market_cap 0
                    let vol_val := safe_float volume_1h 0
                    let buy_val := pyInt (safe_float buys_1h 0)
                    let sell_val := pyInt (safe_float sells_1h 0)
                    let rich := mc_val > 0 ∨ vol_val > 0
                    (acts ++ [Action.printSwap chain symbol address price_val
                       mc_val vol_val buy_val sell_val latency (decide rich)],
                     false)
  | _ => ([], true)

/-- `handle_swap_trade`: the early return on falsy/empty data, then the
record loop; a truthy non-iterable payload raises at `len(data)`. -/
def handle_swap_trade (now : ℚ) (debug : Bool) (data : Value) :
    List Action × Bool :=
  if pyTruthy data = false then ([], false)
  else
    match pyIter data with
    | none => ([], true)
    | some items => runRecords (handle_swap_trade_one now debug) items

/-- `pool.get('ot', open_time)` inside the pool loop: the pool entry's own
open-time value (even a null one) when the key is present, otherwise the
batch-level open-time. -/
def poolOpenTime (p : List (String × Value)) (open_time : Value) : Value :=
  (p.lookup "ot").getD open_time

/-- The body of the `for pool in pools` loop of `handle_new_pool`, for one
pool entry.  Raise points: a non-dict entry; `token_info.get` on a present
non-dict `bti`; `len(pool_addr)` on a non-string pool address, raised only
after the metrics and stats calls. -/
def handle_new_pool_pool (now : ℚ) (chain : String) (open_time : Value)
    (pool : Value) : List Action × Bool :=
  match pool with
  | .vDict p =>
      let exchange := dget p "ex" (.vStr "unknown")
      let pool_addrV := dget p "pa" (.vStr "")
      let initial_liquidity := dget p "il" (.vStr "0")
      let pool_open_time := poolOpenTime p open_time
      match dget p "bti" (.vDict []) with
      | .vDict ti =>
          let symbol := dget ti "s" (.vStr "UNKNOWN")
          let name := dget ti "n" (.vStr "Unknown")
          let price := dget ti "p" (.vNum 0)
          let market_cap := dget ti "mc" (.vNum 0)
          let holder_count := dget ti "hc" (.vNum 0)
          match calculate_latency pool_open_time now with
          | none => ([], false)
          | some latency =>
              let acts := [Action.metricPool "gmgn" chain latency,
                           Action.statsUpdate "pool" chain latency]
              match asStr pool_addrV with
              | none => (acts, true)
              | some pool_addr =>
                  (acts ++ [Action.printPool chain exchange symbol name
                     pool_addr (safe_float initial_liquidity 0)
                     (safe_float price 0) (safe_float market_cap 0)
                     (pyInt (safe_float holder_count 0)) latency],
                   false)
      | _ => ([], true)
  | _ => ([], true)

/-- The body of the `for pool_event in data` loop of `handle_new_pool`:
chain resolution (raising on a non-string chain value), the two wire shapes
(`p` list, or the event itself as single pool when it carries `pa` and the
`p` value is falsy), the batch-level open-time, then the pool loop. -/
def handle_new_pool_one (now : ℚ) (_debug : Bool) (pool_event : Value) :
    List Action × Bool :=
  match pool_event with
  | .vDict d =>
      let chain_raw := dget d "c" (dget d "n" (.vStr "unknown"))
      match get_chain_name_v chain_raw with
      | none => ([], true)
      | some chain =>
          let pools0 := dget d "p" (.vList [])
          let pools :=
            if pyTruthy pools0 = false ∧ (d.lookup "pa").isSome then
              Value.vList [pool_event]
            else pools0
          let open_time := dgetN d "ot"
          match pyIter pools with
          | none => ([], true)
          | some ps => runRecords (handle_new_pool_pool now chain open_time) ps
  | _ => ([], true)

/-- `handle_new_pool`: the early return on falsy/empty data, then the batch
loop. -/
def handle_new_pool (now : ℚ) (debug : Bool) (data : Value) :
    List Action × Bool :=
  if pyTruthy data = false then ([], false)
  else
    match pyIter data with
    | none => ([], true)
    | some items => runRecords (handle_new_pool_one now debug) items

/-- One inbound raw websocket message of `listen_to_gmgn`: its receive/
processing time and the result of `json.loads` (`none` for a
`JSONDecodeError`). -/
abbrev RawMsg : Type := ℚ × Option Value

/-- `listen_to_gmgn`, folded over a list of inbound messages starting from a
given `message_count`.  Returns the `message_count` values at which
`print_summary` fired, and whether the loop was aborted by an exception
(caught by the outer handler, ending the listen phase).  `message_count`
increments for every message, before parsing; parse failures, channel-less
messages and acks `continue` before the `% 50` check; a handler exception or
a non-dict parsed message aborts the loop. -/
def listenLoop (debug : Bool) : List RawMsg → ℕ → List ℕ × Bool
  | [], _ => ([], false)
  | m :: rest, message_count =>
      let count := message_count + 1
      match m.2 with
      | none => listenLoop debug rest count
      | some data =>
          match data with
          | .vDict d =>
              let channel := dgetN d "channel"
              let payload := dgetN d "data"
              if pyTruthy channel = false then listenLoop debug rest count
              else if asStr channel = some "ack" then listenLoop debug rest count
              else
                let handlerRaised :=
                  if asStr channel = some "new_pair_update" then
                    (handle_swap_trade m.1 debug payload).2
                  else if asStr channel = some "new_pool_info" then
                    (handle_new_pool m.1 debug payload).2
                  else false
                if handlerRaised then ([], true)
                else
                  let rest' := listenLoop debug rest count
                  (if count % 50 = 0 then count :: rest'.1 else rest'.1, rest'.2)
          | _ => ([], true)

/-- The initial `reconnect_delay` of `run_gmgn_monitor`. -/
def reconnect_delay0 : ℕ := 5

/-- The `max_reconnect_delay` of `run_gmgn_monitor`. -/
def max_reconnect_delay : ℕ := 60

/-- The sleeps performed by the reconnect loop of `run_gmgn_monitor`, one per
iteration, given each iteration's outcome (`true` when the connection was
established and the listening state reached, which resets the delay to 5
before the connection is eventually lost; `false` when the connection attempt
failed).  After the sleep the delay doubles, capped at 60. -/
def monitorSleeps : List Bool → ℕ → List ℕ
  | [], _ => []
  | success :: rest, reconnect_delay =>
      let d := if success then reconnect_delay0 else reconnect_delay
      d :: monitorSleeps rest (min (d * 2) max_reconnect_delay)

/-- The latency carried by a decoder action lies in the valid range. -/
def actionLatencyOk : Action → Bool
  | .metricSwap _ _ l => decide (0 ≤ l ∧ l ≤ 120000)
  | .metricPool _ _ l => decide (0 ≤ l ∧ l ≤ 120000)
  | .statsUpdate _ _ l => decide (0 ≤ l ∧ l ≤ 120000)
  | .printSwap _ _ _ _ _ _ _ _ l _ => decide (0 ≤ l ∧ l ≤ 120000)
  | .printPool _ _ _ _ _ _ _ _ _ l => decide (0 ≤ l ∧ l ≤ 120000)

/-- The value stored under a key, when present, is a Python string. -/
def strOrAbsent (d : List (String × Value)) (k : String) : Bool :=
  match d.lookup k with
  | none => true
  | some v => (asStr v).isSome

/-- The resolved raw chain value (`c`, falling back to `n`, defaulting to
`"unknown"`) is a string, so `get_chain_name` does not raise on it. -/
def chainFieldOk (d : List (String × Value)) : Bool :=
  (asStr (dget d "c" (dget d "n" (.vStr "unknown")))).isSome

/-- A swap-trade record the decoder handles without raising: a dict whose
chain value is a string (or absent) and whose address value is a string (or
absent); every other field may be missing, null or of any shape. -/
def swapRecordOk (t : Value) : Bool :=
  match t with
  | .vDict d => chainFieldOk d && strOrAbsent d "a"
  | _ => false

/-- A pool entry the pool decoder handles without raising: a dict whose pool
address value is a string (or absent) and whose `bti` value is a dict (or
absent). -/
def poolEntryOk (pv : Value) : Bool :=
  match pv with
  | .vDict p =>
      strOrAbsent p "pa" &&
        (match p.lookup "bti" with
         | none => true
         | some (.vDict _) => true
         | some _ => false)
  | _ => false

/-- A pool batch item the pool decoder handles without raising: a dict with
a string (or absent) chain value whose resolved pool list consists of safe
entries. -/
def poolEventOk (t : Value) : Bool :=
  match t with
  | .vDict d =>
      chainFieldOk d &&
        (let pools0 := dget d "p" (.vList [])
         let pools :=
           if pyTruthy pools0 = false ∧ (d.lookup "pa").isSome then
             Value.vList [t]
           else pools0
         match pools with
         | .vList ps => ps.all poolEntryOk
         | _ => false)
  | _ => false

/-- A parsed inbound message whose processing does not abort the listening
loop: a parse failure, or a dict whose dispatched handler (if any) does not
raise. -/
def msgSafe (debug : Bool) (m : RawMsg) : Bool :=
  match m.2 with
  | none => true
  | some (.vDict d) =>
      let channel := dgetN d "channel"
      let payload := dgetN d "data"
      if pyTruthy channel = false then true
      else if asStr channel = some "ack" then true
      else if asStr channel = some "new_pair_update" then
        !(handle_swap_trade m.1 debug payload).2
      else if asStr channel = some "new_pool_info" then
        !(handle_new_pool m.1 debug payload).2
      else true
  | some _ => false

/-- A message that reaches the `% 50` summary check of the listening loop:
it parses to a dict with a truthy channel that is not `"ack"`. -/
def reachesRenderCheck (m : RawMsg) : Bool :=
  match m.2 with
  | some (.vDict d) =>
      pyTruthy (dgetN d "channel") && !(asStr (dgetN d "channel") == some "ack")
  | _ => false

/-- The number of messages of a list that are dispatched to the swap path or
the pool path ("successfully-channeled" messages). -/
def channeledCount (msgs : List RawMsg) : ℕ :=
  (msgs.filter fun m =>
    match m.2 with
    | some (.vDict d) =>
        asStr (dgetN d "channel") == some "new_pair_update" ||
          asStr (dgetN d "channel") == some "new_pool_info"
    | _ => false).length

/-! ## General lemmas about the embedded operations -/

theorem lookup_mem_snd {α β : Type} [BEq α] [LawfulBEq α] {l : List (α × β)}
    {k : α} {v : β} (h : l.lookup k = some v) : v ∈ l.map Prod.snd := by
  rw [List.lookup_eq_some_iff] at h
  obtain ⟨l₁, l₂, rfl, -⟩ := h
  simp

theorem calculate_latency_bounds {v : Value} {now l : ℚ}
    (h : calculate_latency v now = some l) : 0 ≤ l ∧ l ≤ 120000 := by
  unfold calculate_latency at h
  split at h
  · exact absurd h (by simp)
  · split at h
    · dsimp only at h
      split at h
      · exact absurd h (by simp)
      · rename_i hb
        push_neg at hb
        injection h with h'
        exact h' ▸ hb
    · exact absurd h (by simp)

/-! ## C1: the latency calculator -/

/-- C1: `calculate_latency` returns `(now - origin) * 1000` exactly when that
value lies in `[0, 120000]`, returns `None` when it is negative or above
120000, and returns `None` for a null or zero origin timestamp. -/
theorem C1_calculate_latency (now ts : ℚ) :
    calculate_latency .vNull now = none ∧
    calculate_latency (.vNum 0) now = none ∧
    (ts ≠ 0 →
      (0 ≤ (now - ts) * 1000 ∧ (now - ts) * 1000 ≤ 120000 →
        calculate_latency (.vNum ts) now = some ((now - ts) * 1000)) ∧
      ((now - ts) * 1000 < 0 ∨ (now - ts) * 1000 > 120000 →
        calculate_latency (.vNum ts) now = none)) := by
  refine ⟨rfl, by simp [calculate_latency, pyTruthy], fun hts => ⟨fun hb => ?_, fun hb => ?_⟩⟩
  · have : ¬((now - ts) * 1000 < 0 ∨ (now - ts) * 1000 > 120000) := by
      push_neg
      exact hb
    simp [calculate_latency, pyTruthy, hts, this]
  · simp [calculate_latency, pyTruthy, hts, hb]

/-- C1 witness: a 0 ms latency is kept, a negative one and an over-two-minute
one are rejected, as are null and zero timestamps. -/
theorem C1_calculate_latency_witness :
    calculate_latency (.vNum 100) 100 = some 0 ∧
    calculate_latency (.vNum 101) 100 = none ∧
    calculate_latency (.vNum 100) 300 = none ∧
    calculate_latency .vNull 100 = none ∧
    calculate_latency (.vNum 0) 100 = none := by
  refine ⟨?_, ?_, ?_, (C1_calculate_latency 100 100).1, (C1_calculate_latency 100 0).2.1⟩
  · have h := ((C1_calculate_latency 100 100).2.2 (by norm_num)).1 (by norm_num)
    simpa using h
  · exact ((C1_calculate_latency 100 101).2.2 (by norm_num)).2 (by norm_num)
  · exact ((C1_calculate_latency 300 100).2.2 (by norm_num)).2 (by norm_num)

/-! ## C9: chain normalization -/

/-- C9 counterexample: `get_chain_name` is not idempotent on every input.
The unmapped input `"SOL"` lower-cases to `"sol"`, which the table then maps
to `"solana"` on a second application. -/
theorem C9_get_chain_name_cex :
    get_chain_name (get_chain_name "SOL") ≠ get_chain_name "SOL" := by decide

/-- C9 amended: `get_chain_name` is total, returning the table's canonical
name for mapped inputs and the lower-cased passthrough for unmapped inputs,
and it is idempotent on every mapped input; idempotence fails only on
unmapped inputs whose lower-cased form is itself a mapped code. -/
theorem C9_get_chain_name_amended (x : String) :
    (∀ v, CHAIN_MAP.lookup x = some v → get_chain_name x = v) ∧
    (CHAIN_MAP.lookup x = none → get_chain_name x = pyLower x) ∧
    (∀ v, CHAIN_MAP.lookup x = some v →
      get_chain_name (get_chain_name x) = get_chain_name x) := by
  refine ⟨fun v h => ?_, fun h => ?_, fun v h => ?_⟩
  · simp [get_chain_name, h]
  · simp [get_chain_name, h]
  · have hx : get_chain_name x = v := by simp [get_chain_name, h]
    have hv : v ∈ CHAIN_MAP.map Prod.snd := lookup_mem_snd h
    rw [hx]
    simp only [CHAIN_MAP, List.map_cons, List.map_nil, List.mem_cons,
      List.not_mem_nil, or_false] at hv
    rcases hv with rfl | rfl | rfl | rfl | rfl | rfl | rfl | rfl <;> decide

/-- C9 witness: the amended theorem at the mapped input `"bsc"` and the
unmapped input `"SOL"`. -/
theorem C9_get_chain_name_witness :
    get_chain_name "bsc" = "bnb" ∧
    get_chain_name "SOL" = pyLower "SOL" ∧
    get_chain_name (get_chain_name "bsc") = get_chain_name "bsc" := by
  refine ⟨(C9_get_chain_name_amended "bsc").1 "bnb" (by decide),
    (C9_get_chain_name_amended "SOL").2.1 (by decide),
    (C9_get_chain_name_amended "bsc").2.2 "bnb" (by decide)⟩

/-! ## C2: the validity filter between decoders, aggregator and sink -/

theorem mem_runRecords {f : Value → List Action × Bool} :
    ∀ {items : List Value} {a : Action}, a ∈ (runRecords f items).1 →
      ∃ t ∈ items, a ∈ (f t).1 := by
  intro items
  induction items with
  | nil => simp [runRecords]
  | cons t ts ih =>
      intro a ha
      unfold runRecords at ha
      dsimp only at ha
      by_cases h : (f t).2 <;> simp only [h, if_true, if_false] at ha
      · exact ⟨t, List.mem_cons_self t ts, ha⟩
      · rcases List.mem_append.mp ha with h1 | h2
        · exact ⟨t, List.mem_cons_self t ts, h1⟩
        · obtain ⟨u, hu, hau⟩ := ih h2
          exact ⟨u, List.mem_cons_of_mem t hu, hau⟩

theorem handle_swap_trade_one_latencyOk (now : ℚ) (debug : Bool) (t : Value) :
    ∀ a ∈ (handle_swap_trade_one now debug t).1, actionLatencyOk a = true := by
  intro a ha
  cases t <;>
    simp only [handle_swap_trade_one, List.not_mem_nil] at ha
  rename_i d
  split at ha
  · simp at ha
  · split at ha
    · simp at ha
    · split at ha
      · simp at ha
      · rename_i latency hl
        have hb := calculate_latency_bounds hl
        split at ha
        · simp only [List.mem_cons, List.not_mem_nil, or_false] at ha
          rcases ha with rfl | rfl <;> simp [actionLatencyOk, hb.1, hb.2]
        · simp only [List.mem_append, List.mem_cons, List.not_mem_nil,
            or_false] at ha
          rcases ha with (rfl | rfl) | rfl <;> simp [actionLatencyOk, hb.1, hb.2]

theorem handle_new_pool_pool_latencyOk (now : ℚ) (chain : String)
    (open_time : Value) (t : Value) :
    ∀ a ∈ (handle_new_pool_pool now chain open_time t).1,
      actionLatencyOk a = true := by
  intro a ha
  cases t <;>
    simp only [handle_new_pool_pool, List.not_mem_nil] at ha
  rename_i p
  split at ha
  · split at ha
    · simp at ha
    · rename_i latency hl
      have hb := calculate_latency_bounds hl
      split at ha
      · simp only [List.mem_cons, List.not_mem_nil, or_false] at ha
        rcases ha with rfl | rfl <;> simp [actionLatencyOk, hb.1, hb.2]
      · simp only [List.mem_append, List.mem_cons, List.not_mem_nil,
          or_false] at ha
        rcases ha with (rfl | rfl) | rfl <;> simp [actionLatencyOk, hb.1, hb.2]
  · simp at ha

theorem handle_new_pool_one_latencyOk (now : ℚ) (debug : Bool) (t : Value) :
    ∀ a ∈ (handle_new_pool_one now debug t).1, actionLatencyOk a = true := by
  intro a ha
  cases t <;>
    simp only [handle_new_pool_one, List.not_mem_nil] at ha
  rename_i d
  split at ha
  · simp at ha
  · split at ha
    · simp at ha
    · obtain ⟨u, -, hau⟩ := mem_runRecords ha
      exact handle_new_pool_pool_latencyOk now _ _ u a hau

/-- C2 counterexample: the Metrics Sink is itself a second filtering site.
Its own rejection branch discards an out-of-range value (stale 130000 ms and
negative −50 ms latencies produce no gauge write), so the `[0, 120000]`
filter appears both in `calculate_latency` and in the sink, contradicting
"only one filtering site on each path". -/
theorem C2_sink_filter_cex :
    record_latency "gmgn" "solana" 130000 = [] ∧
    record_pool_discovery_latency "gmgn" "solana" 130000 = [] ∧
    record_latency "gmgn" "solana" (-50) = [] := by
  refine ⟨?_, ?_, ?_⟩ <;> simp [record_latency, record_pool_discovery_latency] <;> norm_num

/-- C2 amended: every latency that reaches the Aggregator or the Metrics
Sink has passed the `[0, 120000]` filter upstream in `calculate_latency`;
the sink re-checks the same bounds (the filter is duplicated, but with
identical, not diverging, bounds), so under that precondition the sink's
rejection branches are unreachable and both gauge writes always happen. -/
theorem C2_filter_once (aggregator chain : String) (l now : ℚ) (v : Value)
    (debug : Bool) (payload : Value) (act : Action) :
    (calculate_latency v now = some l →
      record_latency aggregator chain l =
        [.swapLat chain l, .allAgg aggregator chain l] ∧
      record_pool_discovery_latency aggregator chain l =
        [.poolDisc aggregator chain l, .allAgg aggregator chain l]) ∧
    (act ∈ (handle_swap_trade now debug payload).1 → actionLatencyOk act = true) ∧
    (act ∈ (handle_new_pool now debug payload).1 → actionLatencyOk act = true) := by
  refine ⟨fun h => ?_, fun h => ?_, fun h => ?_⟩
  · have hb := calculate_latency_bounds h
    have hnot : ¬(l < 0 ∨ l > 120000) := by
      push_neg
      exact hb
    constructor <;> simp [record_latency, record_pool_discovery_latency, hnot]
  · unfold handle_swap_trade at h
    split at h
    · simp at h
    · split at h
      · simp at h
      · obtain ⟨u, -, hau⟩ := mem_runRecords h
        exact handle_swap_trade_one_latencyOk now debug u act hau
  · unfold handle_new_pool at h
    split at h
    · simp at h
    · split at h
      · simp at h
      · obtain ⟨u, -, hau⟩ := mem_runRecords h
        exact handle_new_pool_one_latencyOk now debug u act hau

/-- C2 witness: the amended theorem at a concrete in-range latency and at a
concrete action of a concrete decoded batch. -/
theorem C2_filter_once_witness :
    (record_latency "gmgn" "solana" 1000 =
       [.swapLat "solana" 1000, .allAgg "gmgn" "solana" 1000] ∧
     record_pool_discovery_latency "gmgn" "solana" 1000 =
       [.poolDisc "gmgn" "solana" 1000, .allAgg "gmgn" "solana" 1000]) ∧
    actionLatencyOk (.metricSwap "gmgn" "unknown" 1000) = true := by
  refine ⟨(C2_filter_once "gmgn" "solana" 1000 101
      (.vNum 100) false .vNull (.metricSwap "gmgn" "unknown" 1000)).1 ?_, ?_⟩
  · show calculate_latency (.vNum 100) 101 = some 1000
    norm_num [calculate_latency, pyTruthy]
  · refine (C2_filter_once "gmgn" "solana" 1000 101 (.vNum 100) false
      (.vList [.vDict [("t", .vNum 100)]])
      (.metricSwap "gmgn" "unknown" 1000)).2.1 ?_
    have h1 : calculate_latency (.vNum 100) 101 = some 1000 := by
      norm_num [calculate_latency, pyTruthy]
    have h2 : get_chain_name "unknown" = "unknown" := by decide
    simp [handle_swap_trade, pyTruthy, pyIter, runRecords,
      handle_swap_trade_one, h1, h2, dget, dgetN, List.lookup, asStr,
      get_chain_name_v]

/-! ## C5: reconnect backoff -/

theorem monitorSleeps_replicate_false (n : ℕ) : ∀ d : ℕ, d ≤ 60 →
    monitorSleeps (List.replicate n false) d =
      (List.range n).map fun i => min (d * 2 ^ i) 60 := by
  induction n with
  | zero => simp [monitorSleeps]
  | succ n ih =>
      intro d hd
      rw [List.replicate_succ]
      simp only [monitorSleeps, max_reconnect_delay, Bool.false_eq_true,
        if_false, List.range_succ_eq_map, List.map_cons, List.map_map]
      rw [ih (min (d * 2) 60) (min_le_right _ _)]
      refine congrArg₂ _ ?_ (List.map_congr_left fun i _ => ?_)
      · simp [min_eq_left hd]
      · show min (min (d * 2) 60 * 2 ^ i) 60 = min (d * 2 ^ (i + 1)) 60
        rcases le_total (d * 2) 60 with hc | hc
        · rw [min_eq_left hc]
          have : d * 2 * 2 ^ i = d * 2 ^ (i + 1) := by ring
          rw [this]
        · rw [min_eq_right hc]
          have h1 : (60 : ℕ) ≤ 60 * 2 ^ i :=
            Nat.le_mul_of_pos_right 60 (Nat.pos_pow_of_pos i (by norm_num))
          have h2 : (60 : ℕ) ≤ d * 2 ^ (i + 1) := by
            calc (60 : ℕ) ≤ d * 2 := hc
            _ ≤ d * 2 * 2 ^ i :=
                Nat.le_mul_of_pos_right _ (Nat.pos_pow_of_pos i (by norm_num))
            _ = d * 2 ^ (i + 1) := by ring
          rw [min_eq_right h1, min_eq_right h2]

/-- C5: starting from the initial delay of 5, the sleeps for n consecutive
failures are `min (5 * 2 ^ i) 60`, i.e. `5, 10, 20, 40, 60, 60, 60, ...`;
and after an iteration that reached the listening state, the very next sleep
is 5 again, whatever the accumulated delay was. -/
theorem C5_reconnect_backoff :
    (∀ n : ℕ, monitorSleeps (List.replicate n false) reconnect_delay0 =
       (List.range n).map fun i => min (reconnect_delay0 * 2 ^ i) max_reconnect_delay) ∧
    monitorSleeps (List.replicate 7 false) reconnect_delay0 =
      [5, 10, 20, 40, 60, 60, 60] ∧
    (∀ (rest : List Bool) (d : ℕ),
       (monitorSleeps (true :: rest) d).head? = some reconnect_delay0) := by
  refine ⟨fun n => ?_, by decide, fun rest d => rfl⟩
  simpa [reconnect_delay0, max_reconnect_delay] using
    monitorSleeps_replicate_false n 5 (by norm_num)

/-! ## C6 and C10: the statistics aggregator -/

theorem updateGlobals_by_chain (s : Statistics) (et : String) (l : ℚ) :
    (updateGlobals s et l).by_chain = s.by_chain := by
  unfold updateGlobals
  split_ifs <;> rfl

theorem updateGlobals_other (s : Statistics) (et : String) (l : ℚ)
    (h1 : et ≠ "swap") (h2 : et ≠ "pool") : updateGlobals s et l = s := by
  unfold updateGlobals
  simp [h1, h2]

theorem lookup_ensureChain (l : List (String × ChainBucket)) (c : String) :
    (ensureChain l c).lookup c = some ((l.lookup c).getD ⟨0, 0, 0⟩) := by
  unfold ensureChain
  cases h : l.lookup c with
  | some b => simp [h]
  | none => simp [h, List.lookup_append]

theorem chainEventSum_ensureChain (l : List (String × ChainBucket))
    (c : String) : chainEventSum (ensureChain l c) = chainEventSum l := by
  unfold ensureChain
  split
  · rfl
  · simp [chainEventSum]

theorem chainLatencySum_ensureChain (l : List (String × ChainBucket))
    (c : String) : chainLatencySum (ensureChain l c) = chainLatencySum l := by
  unfold ensureChain
  split
  · rfl
  · simp [chainLatencySum]

theorem chainEventSum_setKey :
    ∀ (l : List (String × ChainBucket)) (c : String) (b b' : ChainBucket),
      l.lookup c = some b →
      chainEventSum (setKey l c b') + (b.swap_count + b.pool_count) =
        chainEventSum l + (b'.swap_count + b'.pool_count) := by
  intro l
  induction l with
  | nil => intro c b b' h; simp at h
  | cons kv rest ih =>
      intro c b b' h
      obtain ⟨k, bb⟩ := kv
      rw [List.lookup_cons] at h
      unfold setKey
      by_cases hk : c = k
      · subst hk
        simp only [beq_self_eq_true] at h
        injection h with h
        subst h
        rw [if_pos rfl]
        simp only [chainEventSum, List.map_cons, List.sum_cons]
        omega
      · have hk' : (c == k) = false := by simp [hk]
        rw [hk'] at h
        have hk2 : ¬(k = c) := fun hh => hk hh.symm
        rw [if_neg hk2]
        have := ih c b b' h
        simp only [chainEventSum, List.map_cons, List.sum_cons] at this ⊢
        omega

theorem chainLatencySum_setKey :
    ∀ (l : List (String × ChainBucket)) (c : String) (b b' : ChainBucket),
      l.lookup c = some b →
      chainLatencySum (setKey l c b') + b.total_latency =
        chainLatencySum l + b'.total_latency := by
  intro l
  induction l with
  | nil => intro c b b' h; simp at h
  | cons kv rest ih =>
      intro c b b' h
      obtain ⟨k, bb⟩ := kv
      rw [List.lookup_cons] at h
      unfold setKey
      by_cases hk : c = k
      · subst hk
        simp only [beq_self_eq_true] at h
        injection h with h
        subst h
        rw [if_pos rfl]
        simp only [chainLatencySum, List.map_cons, List.sum_cons]
        ring
      · have hk' : (c == k) = false := by simp [hk]
        rw [hk'] at h
        have hk2 : ¬(k = c) := fun hh => hk hh.symm
        rw [if_neg hk2]
        have := ih c b b' h
        simp only [chainLatencySum, List.map_cons, List.sum_cons] at this ⊢
        linarith

theorem update_ok (s : Statistics) (et c : String) (l : ℚ)
    (h : et = "swap" ∨ et = "pool") :
    Statistics.update s et c l = .ok
      { updateGlobals s et l with
        by_chain := setKey (ensureChain s.by_chain c) c
          (bumpBucket et l ((s.by_chain.lookup c).getD ⟨0, 0, 0⟩)) } := by
  unfold Statistics.update
  simp only [updateGlobals_by_chain, lookup_ensureChain, if_pos h]

theorem update_err (s : Statistics) (et c : String) (l : ℚ)
    (h1 : et ≠ "swap") (h2 : et ≠ "pool") :
    Statistics.update s et c l =
      .error { s with by_chain := ensureChain s.by_chain c } := by
  unfold Statistics.update
  simp only [updateGlobals_other s et l h1 h2, lookup_ensureChain]
  rw [if_neg (by simp [h1, h2])]

theorem applyUpdate_of_ok {s s' : Statistics} {e : String × String × ℚ}
    (h : s.update e.1 e.2.1 e.2.2 = .ok s') : applyUpdate s e = s' := by
  unfold applyUpdate
  rw [h]

theorem applyUpdate_of_err {s s' : Statistics} {e : String × String × ℚ}
    (h : s.update e.1 e.2.1 e.2.2 = .error s') : applyUpdate s e = s' := by
  unfold applyUpdate
  rw [h]

theorem update_swap_spec (s : Statistics) (c : String) (l : ℚ) :
    ∃ s', Statistics.update s "swap" c l = .ok s' ∧
      s'.swap_count = s.swap_count + 1 ∧ s'.pool_count = s.pool_count ∧
      s'.total_swap_latency = s.total_swap_latency + l ∧
      s'.total_pool_latency = s.total_pool_latency ∧
      s'.min_swap_latency = pyMinInf s.min_swap_latency l ∧
      s'.max_swap_latency = max s.max_swap_latency l ∧
      s'.min_pool_latency = s.min_pool_latency ∧
      s'.max_pool_latency = s.max_pool_latency ∧
      s'.by_chain = setKey (ensureChain s.by_chain c) c
        (bumpBucket "swap" l ((s.by_chain.lookup c).getD ⟨0, 0, 0⟩)) := by
  refine ⟨_, update_ok s "swap" c l (Or.inl rfl),
    ?_, ?_, ?_, ?_, ?_, ?_, ?_, ?_, rfl⟩ <;> simp [updateGlobals]

theorem update_pool_spec (s : Statistics) (c : String) (l : ℚ) :
    ∃ s', Statistics.update s "pool" c l = .ok s' ∧
      s'.swap_count = s.swap_count ∧ s'.pool_count = s.pool_count + 1 ∧
      s'.total_swap_latency = s.total_swap_latency ∧
      s'.total_pool_latency = s.total_pool_latency + l ∧
      s'.min_swap_latency = s.min_swap_latency ∧
      s'.max_swap_latency = s.max_swap_latency ∧
      s'.min_pool_latency = pyMinInf s.min_pool_latency l ∧
      s'.max_pool_latency = max s.max_pool_latency l ∧
      s'.by_chain = setKey (ensureChain s.by_chain c) c
        (bumpBucket "pool" l ((s.by_chain.lookup c).getD ⟨0, 0, 0⟩)) := by
  refine ⟨_, update_ok s "pool" c l (Or.inr rfl),
    ?_, ?_, ?_, ?_, ?_, ?_, ?_, ?_, rfl⟩ <;> simp [updateGlobals]

theorem applyUpdate_pool_fields (s : Statistics) (c : String) (l : ℚ) :
    (applyUpdate s ("pool", c, l)).pool_count = s.pool_count + 1 ∧
    (applyUpdate s ("pool", c, l)).total_pool_latency =
      s.total_pool_latency + l := by
  obtain ⟨s', hok, -, e2, -, e4, -, -, -, -, -⟩ := update_pool_spec s c l
  rw [applyUpdate_of_ok hok]
  exact ⟨e2, e4⟩

theorem applyUpdate_swap_fields (s : Statistics) (c : String) (l : ℚ) :
    (applyUpdate s ("swap", c, l)).swap_count = s.swap_count + 1 ∧
    (applyUpdate s ("swap", c, l)).total_swap_latency =
      s.total_swap_latency + l := by
  obtain ⟨s', hok, e1, -, e3, -, -, -, -, -, -⟩ := update_swap_spec s c l
  rw [applyUpdate_of_ok hok]
  exact ⟨e1, e3⟩

theorem runUpdates_swap (L : List (String × ℚ)) : ∀ s : Statistics,
    (runUpdates s (L.map fun p => ("swap", p.1, p.2))).swap_count =
      s.swap_count + L.length ∧
    (runUpdates s (L.map fun p => ("swap", p.1, p.2))).total_swap_latency =
      s.total_swap_latency + (L.map fun p => p.2).sum := by
  induction L with
  | nil => intro s; simp [runUpdates]
  | cons p L ih =>
      intro s
      simp only [List.map_cons, runUpdates, List.foldl_cons]
      obtain ⟨ih1, ih2⟩ := ih (applyUpdate s ("swap", p.1, p.2))
      obtain ⟨h1, h2⟩ := applyUpdate_swap_fields s p.1 p.2
      unfold runUpdates at ih1 ih2
      rw [ih1, ih2, h1, h2]
      constructor
      · simp only [List.length_cons]
        omega
      · simp only [List.map_cons, List.sum_cons]
        ring

theorem runUpdates_pool (L : List (String × ℚ)) : ∀ s : Statistics,
    (runUpdates s (L.map fun p => ("pool", p.1, p.2))).pool_count =
      s.pool_count + L.length ∧
    (runUpdates s (L.map fun p => ("pool", p.1, p.2))).total_pool_latency =
      s.total_pool_latency + (L.map fun p => p.2).sum := by
  induction L with
  | nil => intro s; simp [runUpdates]
  | cons p L ih =>
      intro s
      simp only [List.map_cons, runUpdates, List.foldl_cons]
      obtain ⟨ih1, ih2⟩ := ih (applyUpdate s ("pool", p.1, p.2))
      obtain ⟨h1, h2⟩ := applyUpdate_pool_fields s p.1 p.2
      unfold runUpdates at ih1 ih2
      rw [ih1, ih2, h1, h2]
      constructor
      · simp only [List.length_cons]
        omega
      · simp only [List.map_cons, List.sum_cons]
        ring


/-- C10: `Statistics.update` mutates the global swap counters (count, total,
min, max) exactly when the event type is `"swap"` and the global pool
counters exactly when it is `"pool"`, leaving the other type's counters
unchanged; for any other tag it raises `KeyError`, leaving every global
per-type counter untouched but having already created the zeroed per-chain
bucket for a previously unseen chain — so `update` is total only under the
precondition that the event type is one of `"swap"` and `"pool"`. -/
theorem C10_update_partiality (s : Statistics) (et chain : String) (l : ℚ) :
    (et = "swap" → ∃ s', s.update et chain l = .ok s' ∧
      s'.swap_count = s.swap_count + 1 ∧
      s'.total_swap_latency = s.total_swap_latency + l ∧
      s'.min_swap_latency = pyMinInf s.min_swap_latency l ∧
      s'.max_swap_latency = max s.max_swap_latency l ∧
      s'.pool_count = s.pool_count ∧
      s'.total_pool_latency = s.total_pool_latency ∧
      s'.min_pool_latency = s.min_pool_latency ∧
      s'.max_pool_latency = s.max_pool_latency) ∧
    (et = "pool" → ∃ s', s.update et chain l = .ok s' ∧
      s'.pool_count = s.pool_count + 1 ∧
      s'.total_pool_latency = s.total_pool_latency + l ∧
      s'.min_pool_latency = pyMinInf s.min_pool_latency l ∧
      s'.max_pool_latency = max s.max_pool_latency l ∧
      s'.swap_count = s.swap_count ∧
      s'.total_swap_latency = s.total_swap_latency ∧
      s'.min_swap_latency = s.min_swap_latency ∧
      s'.max_swap_latency = s.max_swap_latency) ∧
    (et ≠ "swap" → et ≠ "pool" →
      s.update et chain l =
        .error { s with by_chain := ensureChain s.by_chain chain } ∧
      (s.by_chain.lookup chain = none →
        ensureChain s.by_chain chain = s.by_chain ++ [(chain, ⟨0, 0, 0⟩)]) ∧
      ((s.by_chain.lookup chain).isSome →
        ensureChain s.by_chain chain = s.by_chain)) := by
  refine ⟨fun h => ?_, fun h => ?_, fun h1 h2 =>
    ⟨update_err s et chain l h1 h2, fun hn => ?_, fun hs => ?_⟩⟩
  · subst h
    obtain ⟨s', hok, e1, e2, e3, e4, e5, e6, e7, e8, -⟩ :=
      update_swap_spec s chain l
    exact ⟨s', hok, e1, e3, e5, e6, e2, e4, e7, e8⟩
  · subst h
    obtain ⟨s', hok, e1, e2, e3, e4, e5, e6, e7, e8, -⟩ :=
      update_pool_spec s chain l
    exact ⟨s', hok, e2, e4, e7, e8, e1, e3, e5, e6⟩
  · unfold ensureChain
    rw [hn]
    rfl
  · unfold ensureChain
    rw [if_pos hs]

/-- C10 witness: on a fresh tracker, a `"swap"` update bumps only the swap
counters and a `"pool"` update only the pool counters, while a `"bogus"`
update raises with the globals unchanged and the new chain's zeroed bucket
already inserted. -/
theorem C10_update_partiality_witness :
    (∃ s', Statistics.init.update "swap" "solana" 5 = .ok s' ∧
      s'.swap_count = Statistics.init.swap_count + 1 ∧
      s'.pool_count = Statistics.init.pool_count) ∧
    (∃ s', Statistics.init.update "pool" "solana" 5 = .ok s' ∧
      s'.pool_count = Statistics.init.pool_count + 1 ∧
      s'.swap_count = Statistics.init.swap_count) ∧
    Statistics.init.update "bogus" "solana" 5 =
      .error { Statistics.init with
               by_chain := ensureChain Statistics.init.by_chain "solana" } ∧
    ensureChain Statistics.init.by_chain "solana" = [("solana", ⟨0, 0, 0⟩)] := by
  refine ⟨?_, ?_,
    ((C10_update_partiality Statistics.init "bogus" "solana" 5).2.2
      (by decide) (by decide)).1, ?_⟩
  · obtain ⟨s', hok, e1, -, -, -, e5, -, -, -⟩ :=
      (C10_update_partiality Statistics.init "swap" "solana" 5).1 rfl
    exact ⟨s', hok, e1, e5⟩
  · obtain ⟨s', hok, e1, -, -, -, e5, -, -, -⟩ :=
      (C10_update_partiality Statistics.init "pool" "solana" 5).2.1 rfl
    exact ⟨s', hok, e1, e5⟩
  · have h := ((C10_update_partiality Statistics.init "bogus" "solana" 5).2.2
      (by decide) (by decide)).2.1 (by rfl)
    simpa [Statistics.init] using h

/-- The reconstruction invariant: the per-chain buckets sum to the global
counters.  It is preserved by every `update` call, raising or not. -/
theorem applyUpdate_invariant (s : Statistics) (e : String × String × ℚ)
    (h1 : chainEventSum s.by_chain = s.swap_count + s.pool_count)
    (h2 : chainLatencySum s.by_chain =
      s.total_swap_latency + s.total_pool_latency) :
    chainEventSum (applyUpdate s e).by_chain =
      (applyUpdate s e).swap_count + (applyUpdate s e).pool_count ∧
    chainLatencySum (applyUpdate s e).by_chain =
      (applyUpdate s e).total_swap_latency +
        (applyUpdate s e).total_pool_latency := by
  obtain ⟨et, c, l⟩ := e
  by_cases hsw : et = "swap"
  · subst hsw
    obtain ⟨s', hok, e1, e2, e3, e4, -, -, -, -, e9⟩ := update_swap_spec s c l
    rw [applyUpdate_of_ok hok]
    have hl := lookup_ensureChain s.by_chain c
    have hbb : bumpBucket "swap" l ((s.by_chain.lookup c).getD ⟨0, 0, 0⟩) =
        ⟨((s.by_chain.lookup c).getD ⟨0, 0, 0⟩).swap_count + 1,
         ((s.by_chain.lookup c).getD ⟨0, 0, 0⟩).pool_count,
         ((s.by_chain.lookup c).getD ⟨0, 0, 0⟩).total_latency + l⟩ := by
      simp [bumpBucket]
    have he := chainEventSum_setKey (ensureChain s.by_chain c) c _
      (bumpBucket "swap" l ((s.by_chain.lookup c).getD ⟨0, 0, 0⟩)) hl
    have hq := chainLatencySum_setKey (ensureChain s.by_chain c) c _
      (bumpBucket "swap" l ((s.by_chain.lookup c).getD ⟨0, 0, 0⟩)) hl
    rw [chainEventSum_ensureChain] at he
    rw [chainLatencySum_ensureChain] at hq
    rw [hbb] at he hq
    dsimp only at he hq
    rw [e1, e2, e3, e4, e9, hbb]
    exact ⟨by omega, by linarith⟩
  · by_cases hpo : et = "pool"
    · subst hpo
      obtain ⟨s', hok, e1, e2, e3, e4, -, -, -, -, e9⟩ := update_pool_spec s c l
      rw [applyUpdate_of_ok hok]
      have hl := lookup_ensureChain s.by_chain c
      have hbb : bumpBucket "pool" l ((s.by_chain.lookup c).getD ⟨0, 0, 0⟩) =
          ⟨((s.by_chain.lookup c).getD ⟨0, 0, 0⟩).swap_count,
           ((s.by_chain.lookup c).getD ⟨0, 0, 0⟩).pool_count + 1,
           ((s.by_chain.lookup c).getD ⟨0, 0, 0⟩).total_latency + l⟩ := by
        simp [bumpBucket]
      have he := chainEventSum_setKey (ensureChain s.by_chain c) c _
        (bumpBucket "pool" l ((s.by_chain.lookup c).getD ⟨0, 0, 0⟩)) hl
      have hq := chainLatencySum_setKey (ensureChain s.by_chain c) c _
        (bumpBucket "pool" l ((s.by_chain.lookup c).getD ⟨0, 0, 0⟩)) hl
      rw [chainEventSum_ensureChain] at he
      rw [chainLatencySum_ensureChain] at hq
      rw [hbb] at he hq
      dsimp only at he hq
      rw [e1, e2, e3, e4, e9, hbb]
      exact ⟨by omega, by linarith⟩
    · rw [applyUpdate_of_err (update_err s et c l hsw hpo)]
      simpa [chainEventSum_ensureChain, chainLatencySum_ensureChain]
        using ⟨h1, h2⟩

theorem runUpdates_invariant (es : List (String × String × ℚ)) :
    ∀ s : Statistics,
      chainEventSum s.by_chain = s.swap_count + s.pool_count →
      chainLatencySum s.by_chain =
        s.total_swap_latency + s.total_pool_latency →
      chainEventSum (runUpdates s es).by_chain =
        (runUpdates s es).swap_count + (runUpdates s es).pool_count ∧
      chainLatencySum (runUpdates s es).by_chain =
        (runUpdates s es).total_swap_latency +
          (runUpdates s es).total_pool_latency := by
  induction es with
  | nil => intro s h1 h2; exact ⟨h1, h2⟩
  | cons e es ih =>
      intro s h1 h2
      obtain ⟨g1, g2⟩ := applyUpdate_invariant s e h1 h2
      simpa only [runUpdates, List.foldl_cons] using
        ih (applyUpdate s e) g1 g2

/-- C6: after N `"swap"` updates with latencies `L1..LN` the running mean
printed by `print_summary` is `sum Li / N`, and likewise after N `"pool"`
updates the pool running mean is `sum Li / N`; and after any sequence of
`"swap"`/`"pool"` updates the per-chain buckets reconstruct the global
totals: the chain `swap_count + pool_count` sums to the global event count
and the chain `total_latency` sums to the global cumulative latency. -/
theorem C6_aggregator_totals (L : List (String × ℚ))
    (es : List (String × String × ℚ)) :
    (L ≠ [] →
      avg_swap (runUpdates Statistics.init (L.map fun p => ("swap", p.1, p.2))) =
        (L.map fun p => p.2).sum / (L.length : ℚ)) ∧
    (L ≠ [] →
      avg_pool (runUpdates Statistics.init (L.map fun p => ("pool", p.1, p.2))) =
        (L.map fun p => p.2).sum / (L.length : ℚ)) ∧
    ((∀ e ∈ es, e.1 = "swap" ∨ e.1 = "pool") →
      chainEventSum (runUpdates Statistics.init es).by_chain =
        (runUpdates Statistics.init es).swap_count +
          (runUpdates Statistics.init es).pool_count ∧
      chainLatencySum (runUpdates Statistics.init es).by_chain =
        (runUpdates Statistics.init es).total_swap_latency +
          (runUpdates Statistics.init es).total_pool_latency) := by
  refine ⟨fun _ => ?_, fun _ => ?_, fun _ => ?_⟩
  · obtain ⟨h1, h2⟩ := runUpdates_swap L Statistics.init
    unfold avg_swap
    rw [h1, h2]
    simp [Statistics.init]
  · obtain ⟨h1, h2⟩ := runUpdates_pool L Statistics.init
    unfold avg_pool
    rw [h1, h2]
    simp [Statistics.init]
  · exact runUpdates_invariant es Statistics.init (by simp [Statistics.init,
      chainEventSum]) (by simp [Statistics.init, chainLatencySum])

/-- C6 witness: two swap updates of 10 ms and 20 ms on solana and bnb give a
15 ms swap running mean, two pool updates of 30 ms and 40 ms give a 35 ms
pool running mean, and a mixed swap/pool sequence keeps the per-chain
buckets summing to the global counters. -/
theorem C6_aggregator_totals_witness :
    avg_swap (runUpdates Statistics.init
      ([("solana", (10 : ℚ)), ("bnb", 20)].map fun p => ("swap", p.1, p.2))) = 15 ∧
    avg_pool (runUpdates Statistics.init
      ([("solana", (30 : ℚ)), ("bnb", 40)].map fun p => ("pool", p.1, p.2))) = 35 ∧
    chainEventSum (runUpdates Statistics.init
        [("swap", "solana", (10 : ℚ)), ("pool", "solana", 30)]).by_chain =
      (runUpdates Statistics.init
        [("swap", "solana", (10 : ℚ)), ("pool", "solana", 30)]).swap_count +
      (runUpdates Statistics.init
        [("swap", "solana", (10 : ℚ)), ("pool", "solana", 30)]).pool_count := by
  refine ⟨?_, ?_, ?_⟩
  · have h := (C6_aggregator_totals [("solana", (10 : ℚ)), ("bnb", 20)] []).1
      (by simp)
    rw [h]
    norm_num
  · have h := (C6_aggregator_totals [("solana", (30 : ℚ)), ("bnb", 40)] []).2.1
      (by simp)
    rw [h]
    norm_num
  · exact ((C6_aggregator_totals []
      [("swap", "solana", (10 : ℚ)), ("pool", "solana", 30)]).2.2
      (by intro e he; fin_cases he <;> simp)).1

/-! ## C7 and C8: pool decoder wire shapes and open-time inheritance -/

/-- C8: the open-time used for a pool entry's latency is the entry's own
`ot` value whenever the entry carries the key (so the whole decode ignores
the batch-level value), and the inherited batch-level value when it does not
(decoding then behaves exactly as if the entry carried the batch value
itself). -/
theorem C8_open_time_inheritance (now : ℚ) (chain : String)
    (p : List (String × Value)) :
    ((p.lookup "ot").isSome →
      ∀ ot1 ot2 : Value, handle_new_pool_pool now chain ot1 (.vDict p) =
        handle_new_pool_pool now chain ot2 (.vDict p)) ∧
    (p.lookup "ot" = none →
      ∀ otb : Value, handle_new_pool_pool now chain otb (.vDict p) =
        handle_new_pool_pool now chain .vNull (.vDict (("ot", otb) :: p))) := by
  constructor
  · intro hs ot1 ot2
    obtain ⟨v, hv⟩ := Option.isSome_iff_exists.mp hs
    simp only [handle_new_pool_pool, poolOpenTime, hv, Option.getD_some]
  · intro hn otb
    have hex : ("ex" == "ot") = false := by decide
    have hpa : ("pa" == "ot") = false := by decide
    have hil : ("il" == "ot") = false := by decide
    have hbti : ("bti" == "ot") = false := by decide
    have hot : ("ot" == "ot") = true := by decide
    simp only [handle_new_pool_pool, poolOpenTime, hn, Option.getD_none,
      dget, List.lookup_cons, hex, hpa, hil, hbti, hot, Option.getD_some]

/-- C8 witness: an entry with its own open-time decodes the same under two
different batch open-times, and an entry without one decodes the same as the
entry with the batch open-time written into it. -/
theorem C8_open_time_inheritance_witness :
    handle_new_pool_pool 50 "solana" (.vNum 1)
        (.vDict [("ot", .vNum 7), ("pa", .vStr "A")]) =
      handle_new_pool_pool 50 "solana" (.vNum 2)
        (.vDict [("ot", .vNum 7), ("pa", .vStr "A")]) ∧
    handle_new_pool_pool 50 "solana" (.vNum 7)
        (.vDict [("pa", .vStr "A")]) =
      handle_new_pool_pool 50 "solana" .vNull
        (.vDict [("ot", .vNum 7), ("pa", .vStr "A")]) := by
  exact ⟨(C8_open_time_inheritance 50 "solana"
      [("ot", .vNum 7), ("pa", .vStr "A")]).1 (by decide) (.vNum 1) (.vNum 2),
    (C8_open_time_inheritance 50 "solana" [("pa", .vStr "A")]).2
      (by decide) (.vNum 7)⟩

/-- C7: the wrapped-list shape and the bare-single-pool shape decode to the
same actions: for a pool entry `d` carrying a pool address, no nested list
and its chain code, wrapping it in a batch item `(c, p := [d])` produces
exactly the same decoded record, aggregator update and metrics-sink call as
presenting `d` directly as the batch item. -/
theorem C7_pool_wire_shapes (now : ℚ) (debug : Bool) (cs : String)
    (d : List (String × Value))
    (hc : d.lookup "c" = some (.vStr cs))
    (hp : d.lookup "p" = none)
    (hpa : (d.lookup "pa").isSome = true) :
    handle_new_pool_one now debug
      (.vDict [("c", .vStr cs), ("p", .vList [.vDict d])]) =
    handle_new_pool_one now debug (.vDict d) := by
  have key : ∀ chain : String,
      handle_new_pool_pool now chain ((d.lookup "ot").getD .vNull) (.vDict d) =
        handle_new_pool_pool now chain .vNull (.vDict d) := by
    intro chain
    have hpot : poolOpenTime d ((d.lookup "ot").getD .vNull) =
        poolOpenTime d .vNull := by
      unfold poolOpenTime
      cases h : d.lookup "ot" <;> simp [h]
    simp only [handle_new_pool_pool, hpot]
  have hcw : ("c" == "c") = true := by decide
  have hpw : ("p" == "c") = false := by decide
  have hpw2 : ("p" == "p") = true := by decide
  have hotw1 : ("ot" == "c") = false := by decide
  have hotw2 : ("ot" == "p") = false := by decide
  simp only [handle_new_pool_one, dget, dgetN, List.lookup_cons, hcw, hpw,
    hpw2, hotw1, hotw2, List.lookup_nil, Option.getD_some, Option.getD_none,
    hc, hp, hpa, pyTruthy, pyIter, get_chain_name_v, asStr, runRecords,
    key, and_true, List.isEmpty_cons, Bool.not_false, List.isEmpty_nil,
    Bool.not_true, Bool.true_eq_false, false_and, if_false, Option.map_some',
    if_true]

/-- C7 witness: the two wire shapes at a concrete solana pool entry. -/
theorem C7_pool_wire_shapes_witness :
    handle_new_pool_one 50 false
      (.vDict [("c", .vStr "sol"),
               ("p", .vList [.vDict [("c", .vStr "sol"),
                 ("pa", .vStr "Addr123456789"), ("ot", .vNum 50)]])]) =
    handle_new_pool_one 50 false
      (.vDict [("c", .vStr "sol"), ("pa", .vStr "Addr123456789"),
               ("ot", .vNum 50)]) :=
  C7_pool_wire_shapes 50 false "sol"
    [("c", .vStr "sol"), ("pa", .vStr "Addr123456789"), ("ot", .vNum 50)]
    (by decide) (by decide) (by decide)

/-! ## C3: best-effort decoding -/

theorem runRecords_ok {f : Value → List Action × Bool} :
    ∀ items : List Value, (∀ t ∈ items, (f t).2 = false) →
      runRecords f items = ((items.map fun t => (f t).1).flatten, false) := by
  intro items
  induction items with
  | nil => intro _; simp [runRecords]
  | cons t ts ih =>
      intro h
      have ht := h t (List.mem_cons_self t ts)
      have hts := ih fun u hu => h u (List.mem_cons_of_mem t hu)
      unfold runRecords
      dsimp only
      rw [ht, hts]
      simp

theorem strOrAbsent_asStr {d : List (String × Value)} {k : String}
    (h : strOrAbsent d k = true) (dv : Value) (hs : (asStr dv).isSome) :
    (asStr (dget d k dv)).isSome = true := by
  unfold strOrAbsent at h
  unfold dget
  cases hk : d.lookup k with
  | none => simpa using hs
  | some v =>
      rw [hk] at h
      simpa using h

theorem handle_swap_trade_one_ok (now : ℚ) (debug : Bool) (t : Value)
    (h : swapRecordOk t = true) :
    (handle_swap_trade_one now debug t).2 = false := by
  cases t
  case vNull => simp [swapRecordOk] at h
  case vNum q => simp [swapRecordOk] at h
  case vStr s => simp [swapRecordOk] at h
  case vList l => simp [swapRecordOk] at h
  rename_i d
  simp only [swapRecordOk] at h
  rw [Bool.and_eq_true] at h
  obtain ⟨h1, h2⟩ := h
  obtain ⟨cr, hcr⟩ := Option.isSome_iff_exists.mp h1
  obtain ⟨a, haa⟩ := Option.isSome_iff_exists.mp
    (strOrAbsent_asStr h2 (.vStr "") (by simp [asStr]))
  unfold handle_swap_trade_one
  simp only [hcr, haa, get_chain_name_v, Option.map_some', Option.isNone_some]
  rw [if_neg (by simp)]
  cases hl : calculate_latency (dgetN d "t") now <;> simp [hl]

theorem handle_new_pool_pool_ok (now : ℚ) (chain : String) (ot : Value)
    (pv : Value) (h : poolEntryOk pv = true) :
    (handle_new_pool_pool now chain ot pv).2 = false := by
  cases pv
  case vNull => simp [poolEntryOk] at h
  case vNum q => simp [poolEntryOk] at h
  case vStr s => simp [poolEntryOk] at h
  case vList l => simp [poolEntryOk] at h
  rename_i p
  simp only [poolEntryOk] at h
  rw [Bool.and_eq_true] at h
  obtain ⟨h1, h2⟩ := h
  obtain ⟨a, haa⟩ := Option.isSome_iff_exists.mp
    (strOrAbsent_asStr h1 (.vStr "") (by simp [asStr]))
  unfold handle_new_pool_pool
  simp only [haa]
  have hbti : ∃ ti, dget p "bti" (.vDict []) = .vDict ti := by
    unfold dget
    cases hk : p.lookup "bti" with
    | none => exact ⟨[], rfl⟩
    | some v =>
        rw [hk] at h2
        cases v
        case vDict ti => exact ⟨ti, rfl⟩
        all_goals simp at h2
  obtain ⟨ti, hti⟩ := hbti
  rw [hti]
  cases hl : calculate_latency (poolOpenTime p ot) now <;> simp [hl, haa]

theorem handle_new_pool_one_ok (now : ℚ) (debug : Bool) (t : Value)
    (h : poolEventOk t = true) :
    (handle_new_pool_one now debug t).2 = false := by
  cases t
  case vNull => simp [poolEventOk] at h
  case vNum q => simp [poolEventOk] at h
  case vStr s => simp [poolEventOk] at h
  case vList l => simp [poolEventOk] at h
  rename_i d
  simp only [poolEventOk] at h
  rw [Bool.and_eq_true] at h
  obtain ⟨h1, h2⟩ := h
  obtain ⟨cr, hcr⟩ := Option.isSome_iff_exists.mp h1
  unfold handle_new_pool_one
  simp only [hcr, get_chain_name_v, Option.map_some']
  cases hpv : (if pyTruthy (dget d "p" (.vList [])) = false ∧
      (d.lookup "pa").isSome then Value.vList [Value.vDict d]
    else dget d "p" (.vList [])) <;> rw [hpv] at h2
  case vList ps =>
    simp only [pyIter]
    rw [List.all_eq_true] at h2
    rw [runRecords_ok (f := handle_new_pool_pool now (get_chain_name cr)
      (dgetN d "ot")) ps (fun u hu =>
        handle_new_pool_pool_ok now _ _ u (h2 u hu))]
  all_goals simp at h2

/-- C3 counterexample: a record whose chain field is present but null makes
`get_chain_name` raise (`chain_code.lower()` on `None`), aborting the whole
batch: no record of the batch is processed, although the sibling record
decodes fine on its own.  So decoding is not independent per record and a
malformed record does abort its siblings. -/
theorem C3_null_chain_cex :
    handle_swap_trade 100 false
      (.vList [.vDict [("c", .vNull), ("t", .vNum 100)],
               .vDict [("t", .vNum 100)]]) = ([], true) ∧
    (handle_swap_trade 100 false (.vList [.vDict [("t", .vNum 100)]])).2 =
      false ∧
    (handle_swap_trade 100 false (.vList [.vDict [("t", .vNum 100)]])).1 ≠
      [] := by
  have hcl : calculate_latency (.vNum 100) (100 : ℚ) = some 0 := by
    norm_num [calculate_latency, pyTruthy]
  have hgu : get_chain_name "unknown" = "unknown" := by decide
  refine ⟨?_, ?_, ?_⟩ <;>
    simp [handle_swap_trade, pyTruthy, pyIter, runRecords,
      handle_swap_trade_one, dget, dgetN, List.lookup, asStr,
      get_chain_name_v, hcl, hgu]

/-- C3 amended: each record of a batch is decoded independently and
best-effort as long as its chain and address values are strings or absent:
absent optional fields degrade to the `"UNKNOWN"`/`"unknown"`/empty-string/
zero defaults and never abort the batch (and likewise for pool batches with
string-or-absent pool addresses and dict-or-absent token info).  A present
but non-string chain or address value, however, raises and aborts the batch
and its remaining records. -/
theorem C3_decoders_best_effort (now : ℚ) (debug : Bool) :
    (∀ trades : List Value, (∀ t ∈ trades, swapRecordOk t = true) →
      handle_swap_trade now debug (.vList trades) =
        ((trades.map fun t => (handle_swap_trade_one now debug t).1).flatten,
         false)) ∧
    (∀ events : List Value, (∀ t ∈ events, poolEventOk t = true) →
      handle_new_pool now debug (.vList events) =
        ((events.map fun t => (handle_new_pool_one now debug t).1).flatten,
         false)) ∧
    (∀ ts : ℚ, ts ≠ 0 → 0 ≤ (now - ts) * 1000 → (now - ts) * 1000 ≤ 120000 →
      handle_swap_trade_one now false (.vDict [("t", .vNum ts)]) =
        ([.metricSwap "gmgn" "unknown" ((now - ts) * 1000),
          .statsUpdate "swap" "unknown" ((now - ts) * 1000),
          .printSwap "unknown" (.vStr "UNKNOWN") "" 0 0 0 0 0
            ((now - ts) * 1000) false], false)) := by
  refine ⟨fun trades h => ?_, fun events h => ?_, fun ts hts hb1 hb2 => ?_⟩
  · cases trades with
    | nil => simp [handle_swap_trade, pyTruthy]
    | cons t ts =>
        rw [handle_swap_trade]
        rw [if_neg (by simp [pyTruthy])]
        simp only [pyIter]
        exact runRecords_ok _ fun u hu =>
          handle_swap_trade_one_ok now debug u (h u hu)
  · cases events with
    | nil => simp [handle_new_pool, pyTruthy]
    | cons t ts =>
        rw [handle_new_pool]
        rw [if_neg (by simp [pyTruthy])]
        simp only [pyIter]
        exact runRecords_ok _ fun u hu =>
          handle_new_pool_one_ok now debug u (h u hu)
  · have hcl : calculate_latency (.vNum ts) now = some ((now - ts) * 1000) := by
      have hnot : ¬((now - ts) * 1000 < 0 ∨ (now - ts) * 1000 > 120000) := by
        push_neg
        exact ⟨hb1, hb2⟩
      simp [calculate_latency, pyTruthy, hts, hnot]
    have hgu : get_chain_name "unknown" = "unknown" := by decide
    simp [handle_swap_trade_one, dget, dgetN, List.lookup, asStr,
      get_chain_name_v, hcl, hgu, safe_float, pyInt]

/-- C3 witness: a two-record swap batch with missing optional fields decodes
both records, and the minimal record yields the default-filled output. -/
theorem C3_decoders_best_effort_witness :
    handle_swap_trade 100 false
      (.vList [.vDict [("t", .vNum 100)], .vDict []]) =
      (((([.vDict [("t", .vNum 100)], .vDict []]).map
        fun t => (handle_swap_trade_one 100 false t).1)).flatten, false) ∧
    handle_swap_trade_one 100 false (.vDict [("t", .vNum 100)]) =
      ([.metricSwap "gmgn" "unknown" ((100 - 100) * 1000),
        .statsUpdate "swap" "unknown" ((100 - 100) * 1000),
        .printSwap "unknown" (.vStr "UNKNOWN") "" 0 0 0 0 0
          ((100 - 100) * 1000) false], false) := by
  refine ⟨(C3_decoders_best_effort 100 false).1
      [.vDict [("t", .vNum 100)], .vDict []] ?_,
    (C3_decoders_best_effort 100 false).2.2 100 (by norm_num)
      (by norm_num) (by norm_num)⟩
  intro t ht
  fin_cases ht <;> decide

/-! ## C4: the 50-message summary cadence -/

theorem listenLoop_cons_parsefail (debug : Bool) (t : ℚ) (rest : List RawMsg)
    (c : ℕ) : listenLoop debug ((t, none) :: rest) c =
      listenLoop debug rest (c + 1) := rfl

theorem listenLoop_cons_nochannel (debug : Bool) (t : ℚ)
    (d : List (String × Value)) (rest : List RawMsg) (c : ℕ)
    (h : pyTruthy (dgetN d "channel") = false) :
    listenLoop debug ((t, some (.vDict d)) :: rest) c =
      listenLoop debug rest (c + 1) := by
  conv_lhs => rw [listenLoop.eq_def]
  dsimp only
  rw [if_pos h]

theorem listenLoop_cons_ack (debug : Bool) (t : ℚ)
    (d : List (String × Value)) (rest : List RawMsg) (c : ℕ)
    (hch : pyTruthy (dgetN d "channel") = true)
    (hack : asStr (dgetN d "channel") = some "ack") :
    listenLoop debug ((t, some (.vDict d)) :: rest) c =
      listenLoop debug rest (c + 1) := by
  conv_lhs => rw [listenLoop.eq_def]
  dsimp only
  rw [if_neg (by simp [hch]), if_pos hack]

theorem listenLoop_cons_dispatch (debug : Bool) (t : ℚ)
    (d : List (String × Value)) (rest : List RawMsg) (c : ℕ)
    (hch : pyTruthy (dgetN d "channel") = true)
    (hack : ¬asStr (dgetN d "channel") = some "ack")
    (hraise : (if asStr (dgetN d "channel") = some "new_pair_update" then
        (handle_swap_trade t debug (dgetN d "data")).2
      else if asStr (dgetN d "channel") = some "new_pool_info" then
        (handle_new_pool t debug (dgetN d "data")).2
      else false) = false) :
    listenLoop debug ((t, some (.vDict d)) :: rest) c =
      (if (c + 1) % 50 = 0 then
         (c + 1) :: (listenLoop debug rest (c + 1)).1
       else (listenLoop debug rest (c + 1)).1,
       (listenLoop debug rest (c + 1)).2) := by
  conv_lhs => rw [listenLoop.eq_def]
  dsimp only
  rw [if_neg (by simp [hch]), if_neg hack, hraise]
  rw [if_neg (by simp)]

/-- Splitting one message off the index-based render specification. -/
theorem renderSpec_cons (c : ℕ) (m : RawMsg) (rest : List RawMsg) :
    ((List.range (m :: rest).length).filterMap fun i =>
      if (c + i + 1) % 50 = 0 ∧
          reachesRenderCheck ((m :: rest).getD i ((0 : ℚ), none)) = true
      then some (c + i + 1) else none) =
    (if (c + 1) % 50 = 0 ∧ reachesRenderCheck m = true then [c + 1] else []) ++
      ((List.range rest.length).filterMap fun i =>
        if (c + 1 + i + 1) % 50 = 0 ∧
            reachesRenderCheck (rest.getD i ((0 : ℚ), none)) = true
        then some (c + 1 + i + 1) else none) := by
  rw [List.length_cons, List.range_succ_eq_map, List.filterMap_cons,
    List.filterMap_map]
  have hsh : ∀ i : ℕ, c + (i + 1) + 1 = c + 1 + i + 1 := fun i => by omega
  have htail : (((fun i =>
      if (c + i + 1) % 50 = 0 ∧
          reachesRenderCheck ((m :: rest).getD i ((0 : ℚ), none)) = true
      then some (c + i + 1) else none) ∘ Nat.succ)) = fun i =>
        if (c + 1 + i + 1) % 50 = 0 ∧
            reachesRenderCheck (rest.getD i ((0 : ℚ), none)) = true
        then some (c + 1 + i + 1) else none := by
    funext i
    simp only [Function.comp_apply, Nat.succ_eq_add_one, List.getD_cons_succ,
      hsh]
  rw [htail]
  by_cases hc0 : (c + 1) % 50 = 0 ∧ reachesRenderCheck m = true
  · rw [if_pos hc0]
    have : (if (c + 0 + 1) % 50 = 0 ∧
        reachesRenderCheck ((m :: rest).getD 0 ((0 : ℚ), none)) = true
      then some (c + 0 + 1) else none) = some (c + 1) := by
      simp only [Nat.add_zero, List.getD_cons_zero]
      rw [if_pos hc0]
    rw [this]
    simp
  · rw [if_neg hc0]
    have : (if (c + 0 + 1) % 50 = 0 ∧
        reachesRenderCheck ((m :: rest).getD 0 ((0 : ℚ), none)) = true
      then some (c + 0 + 1) else none) = none := by
      simp only [Nat.add_zero, List.getD_cons_zero]
      rw [if_neg hc0]
    rw [this]
    simp

/-- C4 counterexample: after 49 `"ack"` messages, the very first
successfully-channeled message (a swap dispatch, the 50th message overall)
already triggers a summary render, because the loop counts every received
message, acks included.  Under the claim no render could fire before the
50th channeled message. -/
theorem C4_render_cadence_cex :
    listenLoop false
      (List.replicate 49 ((0 : ℚ), some (Value.vDict [("channel", .vStr "ack")])) ++
        [((0 : ℚ), some (Value.vDict [("channel", .vStr "new_pair_update"),
          ("data", .vNull)]))]) 0 = ([50], false) ∧
    channeledCount
      (List.replicate 49 ((0 : ℚ), some (Value.vDict [("channel", .vStr "ack")])) ++
        [((0 : ℚ), some (Value.vDict [("channel", .vStr "new_pair_update"),
          ("data", .vNull)]))]) = 1 := by
  constructor <;> decide

/-- C4 amended: the loop counts every received message, including parse
failures, channel-less messages and acks.  A summary render fires exactly at
the messages whose overall 1-based index is divisible by 50 and which parse
to an object with a truthy non-`"ack"` channel (dispatched or not); a
50-multiple falling on a parse failure, channel-less message or ack
suppresses that render instead of deferring it. -/
theorem C4_render_cadence (debug : Bool) (msgs : List RawMsg) : ∀ c : ℕ,
    (∀ m ∈ msgs, msgSafe debug m = true) →
    listenLoop debug msgs c =
      ((List.range msgs.length).filterMap fun i =>
        if (c + i + 1) % 50 = 0 ∧
            reachesRenderCheck (msgs.getD i ((0 : ℚ), none)) = true
        then some (c + i + 1) else none,
       false) := by
  induction msgs with
  | nil => intro c _; simp [listenLoop]
  | cons m rest ih =>
      intro c h
      have hm := h m (List.mem_cons_self m rest)
      have hrest := fun x hx => h x (List.mem_cons_of_mem m hx)
      rw [renderSpec_cons]
      obtain ⟨mt, mv⟩ := m
      match hmv : mv with
      | none =>
          rw [listenLoop_cons_parsefail, ih (c + 1) hrest]
          have : reachesRenderCheck (mt, none) = false := rfl
          rw [this]
          simp
      | some (.vNum q) | some (.vStr s) | some (.vList l) | some .vNull =>
          simp [msgSafe] at hm
      | some (.vDict d) =>
          by_cases hch : pyTruthy (dgetN d "channel") = false
          · rw [listenLoop_cons_nochannel debug mt d rest c hch,
              ih (c + 1) hrest]
            have : reachesRenderCheck (mt, some (.vDict d)) = false := by
              simp [reachesRenderCheck, hch]
            rw [this]
            simp
          · have hch' : pyTruthy (dgetN d "channel") = true := by
              simpa using hch
            by_cases hack : asStr (dgetN d "channel") = some "ack"
            · rw [listenLoop_cons_ack debug mt d rest c hch' hack,
                ih (c + 1) hrest]
              have : reachesRenderCheck (mt, some (.vDict d)) = false := by
                simp [reachesRenderCheck, hch', hack]
              rw [this]
              simp
            · have hreach : reachesRenderCheck (mt, some (.vDict d)) = true := by
                simp [reachesRenderCheck, hch', hack]
              have hraise : (if asStr (dgetN d "channel") = some "new_pair_update"
                  then (handle_swap_trade mt debug (dgetN d "data")).2
                  else if asStr (dgetN d "channel") = some "new_pool_info" then
                    (handle_new_pool mt debug (dgetN d "data")).2
                  else false) = false := by
                unfold msgSafe at hm
                dsimp only at hm
                rw [if_neg (by simp [hch']), if_neg hack] at hm
                split at hm
                · rename_i hsw
                  rw [if_pos hsw]
                  simpa using hm
                · rename_i hsw
                  rw [if_neg hsw]
                  split at hm
                  · rename_i hpo
                    rw [if_pos hpo]
                    simpa using hm
                  · rename_i hpo
                    rw [if_neg hpo]
              rw [listenLoop_cons_dispatch debug mt d rest c hch' hack hraise,
                ih (c + 1) hrest]
              rw [hreach]
              by_cases hc0 : (c + 1) % 50 = 0
              · rw [if_pos hc0, if_pos ⟨hc0, rfl⟩]
                simp
              · rw [if_neg hc0, if_neg (by simp [hc0])]
                simp

/-- C4 witness: the amended characterization at a single ack message (no
render) and at the 49-acks-then-one-swap list (one render at index 50). -/
theorem C4_render_cadence_witness :
    listenLoop false [((0 : ℚ), some (Value.vDict [("channel", .vStr "ack")]))] 0 =
      (((List.range 1).filterMap fun i =>
        if (0 + i + 1) % 50 = 0 ∧
            reachesRenderCheck
              ([((0 : ℚ), some (Value.vDict [("channel", .vStr "ack")]))].getD i
                ((0 : ℚ), none)) = true
        then some (0 + i + 1) else none), false) := by
  refine C4_render_cadence false
    [((0 : ℚ), some (Value.vDict [("channel", .vStr "ack")]))] 0 ?_
  intro m hmem
  fin_cases hmem
  decide

end Gmgn
